import Mathlib

/-!
Verification development for the PACS preloader backend
(`src/backend/server.py`).  The Python source is shallowly embedded:
dictionaries become insertion-ordered association lists, JSON persistence
becomes explicit `Index` values returned by each operation, and the
nondeterministic inputs of the code (`datetime.now()`, `uuid4().hex[:6]`)
become explicit string parameters.
-/

/-! ## Character classes

`sanitize_filename` uses the regexes `[^\w\s\-.]` and `\s+`.  We model the
ASCII core of Python's `\w` (alphanumeric or underscore) and `\s` (the six
ASCII whitespace characters). -/

/-- Python regex `\w` (ASCII part): alphanumeric or underscore. -/
def isWordChar (c : Char) : Bool :=
  c.isAlphanum || c = '_'

/-- Python regex `\s` (ASCII part). -/
def pySpace (c : Char) : Bool :=
  c = ' ' || c = '\t' || c = '\n' || c = '\r' || c = '\x0b' || c = '\x0c'

/-- Characters kept by `re.sub(r'[^\w\s\-.]', '', name)`. -/
def keptChar (c : Char) : Bool :=
  isWordChar c || pySpace c || c = '-' || c = '.'

/-! ## `sanitize_filename`

`server.py` lines 304-308:
```
name = re.sub(r'[^\w\s\-.]', '', name)
name = re.sub(r'\s+', '_', name)
return name[:100]
```
`collapseWs` models `re.sub(r'\s+', '_', ...)`: every maximal run of
whitespace is replaced by a single underscore.  The boolean flag records
whether we are inside a whitespace run whose underscore was already
emitted. -/

def collapseAux : Bool → List Char → List Char
  | _, [] => []
  | inRun, c :: rest =>
    if pySpace c then
      if inRun then collapseAux true rest
      else '_' :: collapseAux true rest
    else c :: collapseAux false rest

def collapseWs (l : List Char) : List Char :=
  collapseAux false l

def sanitizeList (l : List Char) : List Char :=
  (collapseWs (l.filter keptChar)).take 100

/-- `sanitize_filename` of `server.py` (lines 304-308). -/
def sanitize_filename (s : String) : String :=
  ⟨sanitizeList s.data⟩

/-! ### Lemmas about `collapseAux` -/

theorem mem_collapseAux {c : Char} : ∀ {b : Bool} {l : List Char},
    c ∈ collapseAux b l → c = '_' ∨ c ∈ l := by
  intro b l
  induction l generalizing b with
  | nil => intro h; simp [collapseAux] at h
  | cons a rest ih =>
    intro h
    by_cases ha : pySpace a = true
    · cases b with
      | true =>
        simp only [collapseAux, ha, if_pos, if_true] at h
        rcases ih h with h' | h'
        · exact Or.inl h'
        · exact Or.inr (List.mem_cons_of_mem _ h')
      | false =>
        simp only [collapseAux, ha, if_pos, if_false] at h
        rcases List.mem_cons.mp h with h' | h'
        · exact Or.inl h'
        · rcases ih h' with h'' | h''
          · exact Or.inl h''
          · exact Or.inr (List.mem_cons_of_mem _ h'')
    · simp only [collapseAux, ha] at h
      rw [if_neg (by simp [ha])] at h
      rcases List.mem_cons.mp h with h' | h'
      · exact Or.inr (h' ▸ List.mem_cons_self _ _)
      · rcases ih h' with h'' | h''
        · exact Or.inl h''
        · exact Or.inr (List.mem_cons_of_mem _ h'')

theorem collapseAux_no_space {c : Char} : ∀ {b : Bool} {l : List Char},
    c ∈ collapseAux b l → pySpace c = false := by
  intro b l
  induction l generalizing b with
  | nil => intro h; simp [collapseAux] at h
  | cons a rest ih =>
    intro h
    by_cases ha : pySpace a = true
    · cases b with
      | true =>
        simp only [collapseAux, ha, if_true] at h
        exact ih h
      | false =>
        simp only [collapseAux, ha, if_false] at h
        rcases List.mem_cons.mp h with h' | h'
        · subst h'; decide
        · exact ih h'
    · simp only [collapseAux, ha] at h
      rw [if_neg (by simp [ha])] at h
      rcases List.mem_cons.mp h with h' | h'
      · subst h'; simpa using ha
      · exact ih h'

theorem collapseAux_of_no_space : ∀ {b : Bool} {l : List Char},
    (∀ c ∈ l, pySpace c = false) → collapseAux b l = l := by
  intro b l
  induction l generalizing b with
  | nil => intro _; rfl
  | cons a rest ih =>
    intro h
    have ha : pySpace a = false := h a (List.mem_cons_self _ _)
    simp only [collapseAux, ha]
    rw [if_neg (by simp [ha])]
    exact congrArg (a :: ·) (ih fun c hc => h c (List.mem_cons_of_mem _ hc))

theorem keptChar_underscore : keptChar '_' = true := by decide

theorem mem_sanitizeList_kept {c : Char} {l : List Char}
    (h : c ∈ sanitizeList l) : keptChar c = true := by
  have h' : c ∈ collapseWs (l.filter keptChar) := List.take_subset _ _ h
  rcases mem_collapseAux h' with h'' | h''
  · subst h''; decide
  · exact List.of_mem_filter h''

theorem mem_sanitizeList_no_space {c : Char} {l : List Char}
    (h : c ∈ sanitizeList l) : pySpace c = false :=
  collapseAux_no_space (List.take_subset _ _ h)

theorem sanitizeList_idem (l : List Char) :
    sanitizeList (sanitizeList l) = sanitizeList l := by
  have hfilter : (sanitizeList l).filter keptChar = sanitizeList l :=
    List.filter_eq_self.mpr fun c hc => mem_sanitizeList_kept hc
  have hcollapse : collapseWs (sanitizeList l) = sanitizeList l :=
    collapseAux_of_no_space fun c hc => mem_sanitizeList_no_space hc
  have hlen : (sanitizeList l).length ≤ 100 := List.length_take_le _ _
  calc sanitizeList (sanitizeList l)
      = (collapseWs ((sanitizeList l).filter keptChar)).take 100 := rfl
    _ = (sanitizeList l).take 100 := by rw [hfilter, hcollapse]
    _ = sanitizeList l := List.take_of_length_le hlen

/-- C8: `sanitize_filename` is idempotent — stripping disallowed characters,
collapsing whitespace runs to single underscores, and truncating to 100
characters is a fixed point on its own output. -/
theorem sanitize_filename_idem (s : String) :
    sanitize_filename (sanitize_filename s) = sanitize_filename s :=
  congrArg String.mk (sanitizeList_idem s.data)

/-! ## Python `int()` parsing

`receive_image` calls `int(image_index)` (line 193).  Python's `int` on a
string strips surrounding whitespace, allows one `+`/`-` sign, and then a
nonempty digit sequence in which single underscores may separate digit
groups; anything else raises `ValueError`. -/

def digitVal (c : Char) : Nat := c.toNat - 48

def pyDigitsAux (acc : Nat) : List Char → Option Nat
  | [] => some acc
  | c :: rest =>
    if c.isDigit then pyDigitsAux (10 * acc + digitVal c) rest
    else if c = '_' then
      match rest with
      | [] => none
      | c2 :: rest2 =>
        if c2.isDigit then pyDigitsAux (10 * acc + digitVal c2) rest2 else none
    else none

def pyDigits : List Char → Option Nat
  | [] => none
  | c :: rest => if c.isDigit then pyDigitsAux (digitVal c) rest else none

def pyStrip (l : List Char) : List Char :=
  ((l.dropWhile pySpace).reverse.dropWhile pySpace).reverse

/-- Model of Python `int(s)` on a string: `some n` on success, `none` when
`ValueError` would be raised. -/
def pyInt? (s : String) : Option Int :=
  match pyStrip s.data with
  | '+' :: rest => (pyDigits rest).map Int.ofNat
  | '-' :: rest => (pyDigits rest).map (fun n => -(n : Int))
  | l => (pyDigits l).map Int.ofNat

/-! ## Data model

Python dictionaries preserve insertion order, so every mapping in
`index.json` is embedded as an association list with unique keys:
lookup returns the first binding, updating an existing key keeps its
position, and a fresh key is appended at the end. -/

/-- One entry of a study's `images` list (`server.py` lines 190-197).
`uid` is `none` when the `uid` key is absent from the dict. -/
structure ImageRec where
  filename : String
  path : String
  index : Int
  saved_at : String
  uid : Option String
deriving DecidableEq

/-- One value of `patient["studies"]` (lines 167-172). -/
structure Study where
  uid : String
  description : String
  date : String
  images : List ImageRec
deriving DecidableEq

/-- One value of `index["patients"]` (lines 114-121 / 147-154). -/
structure Patient where
  name : String
  dob : String
  clinic_date : String
  studies : List (String × Study)
  image_count : Nat
  created_at : String
deriving DecidableEq

/-- The root persisted document (`load_index`, lines 45-52).  `updated` is
`none` until the first `save_index`. -/
structure Index where
  patients : List (String × Patient)
  pending_refreshes : List (String × String)
  updated : Option String
deriving DecidableEq

/-- Dict lookup: first binding for the key, if any. -/
def alookup (k : String) : List (String × α) → Option α
  | [] => none
  | (k', v) :: rest => if k' = k then some v else alookup k rest

/-- Dict assignment `d[k] = v`: overwrite in place, or append a fresh key. -/
def setKey (k : String) (v : α) : List (String × α) → List (String × α)
  | [] => [(k, v)]
  | (k', v') :: rest => if k' = k then (k, v) :: rest else (k', v') :: setKey k v rest

theorem alookup_setKey_self (k : String) (v : α) (l : List (String × α)) :
    alookup k (setKey k v l) = some v := by
  induction l with
  | nil => simp [setKey, alookup]
  | cons kv rest ih =>
    by_cases h : kv.1 = k
    · simp [setKey, h, alookup]
    · simp [setKey, h, alookup, ih]

theorem alookup_setKey_ne {k k' : String} (h : k' ≠ k) (v : α) (l : List (String × α)) :
    alookup k' (setKey k v l) = alookup k' l := by
  have hk' : ¬k = k' := fun he => h he.symm
  induction l with
  | nil => simp [setKey, alookup, hk']
  | cons kv rest ih =>
    obtain ⟨a, b⟩ := kv
    by_cases hk : a = k
    · subst hk
      simp [setKey, alookup, hk']
    · simp [setKey, alookup, hk, ih]

theorem mem_setKey {kv : String × α} {k : String} {v : α} :
    ∀ {l : List (String × α)}, kv ∈ setKey k v l → kv = (k, v) ∨ kv ∈ l := by
  intro l
  induction l with
  | nil => intro h; simp [setKey] at h; exact Or.inl h
  | cons kv' rest ih =>
    intro h
    by_cases hk : kv'.1 = k
    · simp only [setKey, hk, if_pos] at h
      rcases List.mem_cons.mp h with h' | h'
      · exact Or.inl h'
      · exact Or.inr (List.mem_cons_of_mem _ h')
    · simp only [setKey, hk, if_neg, ite_false] at h
      rcases List.mem_cons.mp h with h' | h'
      · exact Or.inr (h' ▸ List.mem_cons_self _ _)
      · rcases ih h' with h'' | h''
        · exact Or.inl h''
        · exact Or.inr (List.mem_cons_of_mem _ h'')

/-! ## Key derivation and patient/study resolution (`receive_image`, lines 141-174)

Python truthiness of a string (`s or t`, `if s:`) is modelled by comparing
with the empty string. -/

/-- `patient_key = sanitize_filename(f"{patient_name}_{patient_dob}")`
(lines 112 and 143). -/
def patient_key_of (patient_name patient_dob : String) : String :=
  sanitize_filename (patient_name ++ "_" ++ patient_dob)

/-- Lines 159-165: `study_uid` wins when non-empty, otherwise
`sanitize_filename(f"{study_description or 'study'}_{study_date or clinic_date or ''}")`,
with the literal `"unknown"` when that sanitizes to the empty string. -/
def study_key_of (study_uid study_description study_date clinic_date : String) : String :=
  if study_uid ≠ "" then study_uid
  else
    let fallback_date :=
      if study_date ≠ "" then study_date
      else if clinic_date ≠ "" then clinic_date else ""
    let k := sanitize_filename
      ((if study_description ≠ "" then study_description else "study") ++ "_" ++ fallback_date)
    if k = "" then "unknown" else k

/-- Lines 146-156: the patient record after the create-or-backfill step of
`receive_image` — a fresh record when the key is absent, otherwise the
stored record with `clinic_date` backfilled when it was empty and the
incoming `clinic_date` is non-empty. -/
def patient_after_reg (idx : Index) (patient_name patient_dob clinic_date now : String) :
    Patient :=
  match alookup (patient_key_of patient_name patient_dob) idx.patients with
  | none =>
    { name := patient_name, dob := patient_dob, clinic_date := clinic_date,
      studies := [], image_count := 0, created_at := now }
  | some p =>
    if clinic_date ≠ "" ∧ p.clinic_date = "" then { p with clinic_date := clinic_date }
    else p

/-- Lines 166-174: the study record resolved inside the patient — a fresh
record when the study key is absent. -/
def study_resolved (p : Patient) (study_uid study_description study_date clinic_date : String) :
    Study :=
  match alookup (study_key_of study_uid study_description study_date clinic_date) p.studies with
  | none => { uid := study_uid, description := study_description, date := study_date, images := [] }
  | some s => s

/-- Lines 176-180: the duplicate check — fires when `image_uid` is non-empty
and some stored image of the study carries the same uid. -/
def isDupImage (st : Study) (image_uid : String) : Bool :=
  image_uid != "" && st.images.any (fun img => img.uid == some image_uid)

/-- Lines 183-184: `f"{sanitize_filename(study_description or study_uid or 'study')}_{image_index}_{uuid.uuid4().hex[:6]}.jpg"`;
the six random hex characters are the explicit `rand` parameter. -/
def image_filename_of (study_uid study_description image_index rand : String) : String :=
  sanitize_filename
      (if study_description ≠ "" then study_description
       else if study_uid ≠ "" then study_uid else "study")
    ++ "_" ++ image_index ++ "_" ++ rand ++ ".jpg"

/-- Lines 190-197: the appended image entry; `path` is the file path
relative to the data directory, and the `uid` key is only present when
`image_uid` is non-empty. -/
def new_image_entry (patient_key fn : String) (n : Int) (now image_uid : String) : ImageRec :=
  { filename := fn, path := "images/" ++ patient_key ++ "/" ++ fn, index := n,
    saved_at := now, uid := if image_uid ≠ "" then some image_uid else none }

/-- The resolved study with the new entry appended (line 199). -/
def study_after_save (idx : Index)
    (pn pd su sd sdt cd iu now fn : String) (n : Int) : Study :=
  let st0 := study_resolved (patient_after_reg idx pn pd cd now) su sd sdt cd
  { st0 with images := st0.images ++ [new_image_entry (patient_key_of pn pd) fn n now iu] }

/-- The patient after the save path: the updated study is written back and
`image_count` is recomputed as the sum over all studies (lines 200-202). -/
def patient_after_save (idx : Index)
    (pn pd su sd sdt cd iu now fn : String) (n : Int) : Patient :=
  let p0 := patient_after_reg idx pn pd cd now
  let studies1 := setKey (study_key_of su sd sdt cd)
      (study_after_save idx pn pd su sd sdt cd iu now fn n) p0.studies
  { p0 with
    studies := studies1,
    image_count := (studies1.map (fun kv => kv.2.images.length)).sum }

/-- The persisted index after the save path; `save_index` (lines 54-56)
stamps `updated` with the current time. -/
def apply_save (idx : Index)
    (pn pd su sd sdt cd iu now fn : String) (n : Int) : Index :=
  { idx with
    patients := setKey (patient_key_of pn pd)
        (patient_after_save idx pn pd su sd sdt cd iu now fn n) idx.patients,
    updated := some now }

/-- Result statuses of `receive_image`, plus the `ValueError` escape of
`int(image_index)` (line 193) which FastAPI surfaces as a rejected request. -/
inductive RIStatus where
  | saved (filename : String) (patient : String)
  | skipped (patient : String)
  | validationError
deriving DecidableEq

/-- Observable outcome of one `receive_image` call: its HTTP-level result,
the index document as persisted on disk after the call (the incoming one
when `save_index` was never reached), and the image files written during
the call, as (patient directory, filename) pairs. -/
structure RIOutcome where
  status : RIStatus
  persisted : Index
  written : List (String × String)
deriving DecidableEq

/-- `receive_image` (`server.py` lines 126-206).  Parameters mirror the form
fields; `now` is `datetime.now().isoformat()` and `rand` the uuid-derived
hex suffix.  The duplicate check returns before any file write or persist;
an invalid `image_index` raises after the file write but before any index
mutation is persisted. -/
def receive_image (idx : Index)
    (pn pd su sd sdt ii cd iu now rand : String) : RIOutcome :=
  let pk := patient_key_of pn pd
  let p0 := patient_after_reg idx pn pd cd now
  let st0 := study_resolved p0 su sd sdt cd
  if isDupImage st0 iu then
    { status := RIStatus.skipped pk, persisted := idx, written := [] }
  else
    let fn := image_filename_of su sd ii rand
    match pyInt? ii with
    | none =>
      { status := RIStatus.validationError, persisted := idx, written := [(pk, fn)] }
    | some n =>
      { status := RIStatus.saved fn pk,
        persisted := apply_save idx pn pd su sd sdt cd iu now fn n,
        written := [(pk, fn)] }

/-- `register_patient` (`server.py` lines 104-123): create-only — when the
key already exists nothing is mutated and `save_index` is not called.
Returns the persisted index and the reported key. -/
def register_patient (idx : Index)
    (patient_name patient_dob clinic_date now : String) : Index × String :=
  let pk := patient_key_of patient_name patient_dob
  match alookup pk idx.patients with
  | none =>
    ({ idx with
        patients := setKey pk
          { name := patient_name, dob := patient_dob, clinic_date := clinic_date,
            studies := [], image_count := 0, created_at := now } idx.patients,
        updated := some now }, pk)
  | some _ => (idx, pk)

/-- The dict built for each patient by `list_patients` (lines 214-222).
Note that it carries no `created_at` field. -/
structure PatientSummary where
  key : String
  name : String
  dob : String
  clinic_date : String
  image_count : Nat
  study_count : Nat
deriving DecidableEq

def summary_of (k : String) (p : Patient) : PatientSummary :=
  { key := k, name := p.name, dob := p.dob, clinic_date := p.clinic_date,
    image_count := p.image_count, study_count := p.studies.length }

/-- Lexicographic (code-point) order on character lists, as Python compares
strings. -/
def lexLt : List Char → List Char → Bool
  | [], [] => false
  | [], _ :: _ => true
  | _ :: _, [] => false
  | a :: as, b :: bs =>
    if a.toNat < b.toNat then true
    else if b.toNat < a.toNat then false
    else lexLt as bs

/-- String comparison `a <= b`, as Python uses for `sort` keys. -/
def pyStrLe (a b : String) : Bool :=
  a == b || lexLt a.data b.data

/-- Stable insertion: `a` is placed before the first element it compares
`≤` to, so elements equal under `le` keep their original order. -/
def sInsert (le : α → α → Bool) (a : α) : List α → List α
  | [] => [a]
  | b :: l => if le a b then a :: b :: l else b :: sInsert le a l

/-- Stable sort (Python `list.sort` is stable; any stable sort computes the
same output, so insertion sort is a faithful model). -/
def stableSortBy (le : α → α → Bool) : List α → List α
  | [] => []
  | a :: l => sInsert le a (stableSortBy le l)

/-- `p.get("created_at", "")` (line 224): the summary dicts built on lines
215-222 never carry a `created_at` key, so the default `""` is returned for
every element. -/
def createdAtKey (_ : PatientSummary) : String := ""

/-- `p["clinic_date"] or ""` (line 225). -/
def clinicKey (p : PatientSummary) : String :=
  if p.clinic_date ≠ "" then p.clinic_date else ""

/-- `list_patients` (`server.py` lines 209-226): build the summaries, then
two stable sorts — first by `p.get("created_at", "")` ascending, then by
`clinic_date` descending (`reverse=True` keeps ties in their pre-sort
order). -/
def list_patients (idx : Index) : List PatientSummary :=
  let ps := idx.patients.map (fun kv => summary_of kv.1 kv.2)
  let ps1 := stableSortBy (fun a b => pyStrLe (createdAtKey a) (createdAtKey b)) ps
  stableSortBy (fun a b => pyStrLe (clinicKey b) (clinicKey a)) ps1

/-- `request_refresh` (`server.py` lines 253-261): 404 (`none`) when the
patient key is unknown; otherwise `pending_refreshes[key]` is set to the
UTC timestamp `utcNow` and the index is persisted (`updated := now`). -/
def request_refresh (idx : Index) (patient_key utcNow now : String) : Option Index :=
  match alookup patient_key idx.patients with
  | none => none
  | some _ =>
    some { idx with
      pending_refreshes := setKey patient_key utcNow idx.pending_refreshes,
      updated := some now }

/-! ## Recognition scorer (`ocr_image`, lines 89-97)

`date_re = re.compile(r'\b\d{1,2}[/\-]\d{1,2}[/\-]\d{2,4}\b')` and
`len(date_re.findall(t))`.  The pattern is fixed, so instead of a general
regex engine we embed a scanner with exactly Python's semantics for this
pattern: `findall` walks positions left to right, taking the leftmost
non-overlapping matches; greedy `\d{m,n}` backtracks from the longest
alternative; `\b` before a digit requires the previous character to not be
a word character. -/

def sepChar (c : Char) : Bool := c = '/' || c = '-'

/-- Consume exactly `n` digits, returning the remainder. -/
def takeExactDigits : Nat → List Char → Option (List Char)
  | 0, l => some l
  | _ + 1, [] => none
  | n + 1, c :: l => if c.isDigit then takeExactDigits n l else none

/-- The trailing `\b`: the next character must not be a word character. -/
def boundaryOk : List Char → Bool
  | [] => true
  | c :: _ => !isWordChar c

/-- `\d{2,4}\b`, greedy: try 4, then 3, then 2 digits. -/
def matchYearB (l : List Char) : Option (List Char) :=
  match takeExactDigits 4 l with
  | some r => if boundaryOk r then some r else
      match takeExactDigits 3 l with
      | some r3 => if boundaryOk r3 then some r3 else
          match takeExactDigits 2 l with
          | some r2 => if boundaryOk r2 then some r2 else none
          | none => none
      | none =>
          match takeExactDigits 2 l with
          | some r2 => if boundaryOk r2 then some r2 else none
          | none => none
  | none =>
    match takeExactDigits 3 l with
    | some r3 => if boundaryOk r3 then some r3 else
        match takeExactDigits 2 l with
        | some r2 => if boundaryOk r2 then some r2 else none
        | none => none
    | none =>
      match takeExactDigits 2 l with
      | some r2 => if boundaryOk r2 then some r2 else none
      | none => none

/-- `[/\-]\d{2,4}\b`. -/
def matchSepYear : List Char → Option (List Char)
  | [] => none
  | c :: rest => if sepChar c then matchYearB rest else none

/-- `\d{1,2}[/\-]\d{2,4}\b`, greedy on the first group with backtracking. -/
def matchMonthTail (l : List Char) : Option (List Char) :=
  match takeExactDigits 2 l with
  | some r =>
    match matchSepYear r with
    | some r' => some r'
    | none =>
      match takeExactDigits 1 l with
      | some r1 => matchSepYear r1
      | none => none
  | none =>
    match takeExactDigits 1 l with
    | some r1 => matchSepYear r1
    | none => none

/-- `[/\-]\d{1,2}[/\-]\d{2,4}\b`. -/
def matchSepMonth : List Char → Option (List Char)
  | [] => none
  | c :: rest => if sepChar c then matchMonthTail rest else none

/-- The full pattern after the leading `\b`:
`\d{1,2}[/\-]\d{1,2}[/\-]\d{2,4}\b`. -/
def matchDate (l : List Char) : Option (List Char) :=
  match takeExactDigits 2 l with
  | some r =>
    match matchSepMonth r with
    | some r' => some r'
    | none =>
      match takeExactDigits 1 l with
      | some r1 => matchSepMonth r1
      | none => none
  | none =>
    match takeExactDigits 1 l with
    | some r1 => matchSepMonth r1
    | none => none

/-- `findall` scan.  `prevWord` says whether the character before the
current position is a word character (so whether the leading `\b` can hold
— the first pattern character is a digit).  The `fuel` argument only makes
the recursion structural: every step consumes at least one character, so
`fuel = l.length` reproduces the scan exactly. -/
def countDatesAux : Nat → List Char → Bool → Nat
  | 0, _, _ => 0
  | _ + 1, [], _ => 0
  | fuel + 1, c :: rest, prevWord =>
    match (if prevWord then none else matchDate (c :: rest)) with
    | some rest' => 1 + countDatesAux fuel rest' true
    | none => countDatesAux fuel rest (isWordChar c)

/-- `len(date_re.findall(t))` (line 93). -/
def countDates (t : String) : Nat :=
  countDatesAux t.data.length t.data false

/-- One iteration of the loop on lines 91-95: keep the new text only when
its date count strictly exceeds the best so far. -/
def ocrStep (best : String × Nat) (t : String) : String × Nat :=
  let n := countDates t
  if n > best.2 then (t, n) else best

/-- The psm-mode loop of `ocr_image` (lines 90-95) over the recognizer
outputs in mode priority order, starting from `best_text, best_count = '', 0`. -/
def ocrBest (texts : List String) : String × Nat :=
  texts.foldl ocrStep ("", 0)

/-! ## Case lemmas for `receive_image` -/

theorem receive_image_dup_eq (idx : Index) (pn pd su sd sdt ii cd iu now rand : String)
    (h : isDupImage (study_resolved (patient_after_reg idx pn pd cd now) su sd sdt cd) iu
          = true) :
    receive_image idx pn pd su sd sdt ii cd iu now rand =
      { status := RIStatus.skipped (patient_key_of pn pd), persisted := idx, written := [] } := by
  simp [receive_image, h]

theorem receive_image_save_eq (idx : Index) (pn pd su sd sdt ii cd iu now rand : String)
    (n : Int)
    (h : isDupImage (study_resolved (patient_after_reg idx pn pd cd now) su sd sdt cd) iu
          = false)
    (hint : pyInt? ii = some n) :
    receive_image idx pn pd su sd sdt ii cd iu now rand =
      { status := RIStatus.saved (image_filename_of su sd ii rand) (patient_key_of pn pd),
        persisted := apply_save idx pn pd su sd sdt cd iu now (image_filename_of su sd ii rand) n,
        written := [(patient_key_of pn pd, image_filename_of su sd ii rand)] } := by
  simp [receive_image, h, hint]

theorem receive_image_invalid_eq (idx : Index) (pn pd su sd sdt ii cd iu now rand : String)
    (h : isDupImage (study_resolved (patient_after_reg idx pn pd cd now) su sd sdt cd) iu
          = false)
    (hint : pyInt? ii = none) :
    receive_image idx pn pd su sd sdt ii cd iu now rand =
      { status := RIStatus.validationError, persisted := idx,
        written := [(patient_key_of pn pd, image_filename_of su sd ii rand)] } := by
  simp [receive_image, h, hint]

/-- After the create-or-backfill step, a non-empty incoming `clinic_date`
guarantees the resolved patient has a non-empty `clinic_date`. -/
theorem patient_after_reg_clinic_ne (idx : Index) (pn pd cd now : String) (hcd : cd ≠ "") :
    (patient_after_reg idx pn pd cd now).clinic_date ≠ "" := by
  unfold patient_after_reg
  cases halo : alookup (patient_key_of pn pd) idx.patients with
  | none => simpa using hcd
  | some p =>
    by_cases hp : p.clinic_date = ""
    · simp [hcd, hp]
    · simp [hcd, hp]

/-- Re-resolving the patient on the persisted index after a save yields the
saved patient record (the backfill condition can no longer fire). -/
theorem patient_after_reg_after_save (idx : Index)
    (pn pd su sd sdt cd iu now fn now' : String) (n : Int) :
    patient_after_reg (apply_save idx pn pd su sd sdt cd iu now fn n) pn pd cd now'
      = patient_after_save idx pn pd su sd sdt cd iu now fn n := by
  unfold patient_after_reg apply_save
  rw [alookup_setKey_self]
  by_cases hcd : cd = ""
  · simp [hcd]
  · have : (patient_after_save idx pn pd su sd sdt cd iu now fn n).clinic_date ≠ "" := by
      show (patient_after_reg idx pn pd cd now).clinic_date ≠ ""
      exact patient_after_reg_clinic_ne idx pn pd cd now hcd
    simp [this]

/-- Re-resolving the study inside the saved patient yields the saved study. -/
theorem study_resolved_after_save (idx : Index)
    (pn pd su sd sdt cd iu now fn : String) (n : Int) :
    study_resolved (patient_after_save idx pn pd su sd sdt cd iu now fn n) su sd sdt cd
      = study_after_save idx pn pd su sd sdt cd iu now fn n := by
  unfold study_resolved
  have hst : (patient_after_save idx pn pd su sd sdt cd iu now fn n).studies
      = setKey (study_key_of su sd sdt cd)
          (study_after_save idx pn pd su sd sdt cd iu now fn n)
          (patient_after_reg idx pn pd cd now).studies := rfl
  rw [hst, alookup_setKey_self]

/-- The saved study always contains the freshly appended uid, so a repeat
ingestion with the same non-empty `image_uid` trips the duplicate check. -/
theorem isDup_after_save (idx : Index)
    (pn pd su sd sdt cd iu now fn : String) (n : Int) (hiu : iu ≠ "") :
    isDupImage (study_after_save idx pn pd su sd sdt cd iu now fn n) iu = true := by
  simp [isDupImage, study_after_save, new_image_entry, List.any_append, hiu]

/-! ## C1: duplicate suppression -/

/-- C1: when the incoming image carries a non-empty uid that some image of
the resolved study already has (the `isDupImage` check, lines 176-180),
`receive_image` returns the skipped/duplicate result, writes no file and
leaves the persisted index unchanged; and ingesting the same
(patient, study, image-uid) triple twice stores exactly one image with that
uid while the second call returns the duplicate result, again with no file
written and no index change. -/
theorem receive_image_dedup (idx : Index)
    (pn pd su sd sdt ii cd iu now rand now' rand' : String) (n : Int) :
    (isDupImage (study_resolved (patient_after_reg idx pn pd cd now) su sd sdt cd) iu = true →
      receive_image idx pn pd su sd sdt ii cd iu now rand =
        { status := RIStatus.skipped (patient_key_of pn pd), persisted := idx, written := [] })
    ∧ (iu ≠ "" →
       (study_resolved (patient_after_reg idx pn pd cd now) su sd sdt cd).images.countP
           (fun img => img.uid == some iu) = 0 →
       pyInt? ii = some n →
       (receive_image idx pn pd su sd sdt ii cd iu now rand).status
           = RIStatus.saved (image_filename_of su sd ii rand) (patient_key_of pn pd)
        ∧ (study_resolved
             (patient_after_reg (receive_image idx pn pd su sd sdt ii cd iu now rand).persisted
               pn pd cd now') su sd sdt cd).images.countP (fun img => img.uid == some iu) = 1
        ∧ receive_image (receive_image idx pn pd su sd sdt ii cd iu now rand).persisted
             pn pd su sd sdt ii cd iu now' rand' =
            { status := RIStatus.skipped (patient_key_of pn pd),
              persisted := (receive_image idx pn pd su sd sdt ii cd iu now rand).persisted,
              written := [] }) := by
  constructor
  · intro h
    exact receive_image_dup_eq idx pn pd su sd sdt ii cd iu now rand h
  · intro hiu hcount hint
    have hdup : isDupImage (study_resolved (patient_after_reg idx pn pd cd now) su sd sdt cd) iu
        = false := by
      have hall := List.countP_eq_zero.mp hcount
      simp only [isDupImage]
      rw [List.any_eq_false.mpr (by intro img himg; simpa using hall img himg)]
      simp
    have h1 := receive_image_save_eq idx pn pd su sd sdt ii cd iu now rand n hdup hint
    rw [h1]
    refine ⟨rfl, ?_, ?_⟩
    · rw [patient_after_reg_after_save, study_resolved_after_save]
      have himg : (study_after_save idx pn pd su sd sdt cd iu now
          (image_filename_of su sd ii rand) n).images
          = (study_resolved (patient_after_reg idx pn pd cd now) su sd sdt cd).images
            ++ [new_image_entry (patient_key_of pn pd) (image_filename_of su sd ii rand) n now iu]
          := rfl
      rw [himg, List.countP_append, hcount]
      simp [new_image_entry, hiu]
    · have hdup2 : isDupImage (study_resolved (patient_after_reg
          (apply_save idx pn pd su sd sdt cd iu now (image_filename_of su sd ii rand) n)
          pn pd cd now') su sd sdt cd) iu = true := by
        rw [patient_after_reg_after_save, study_resolved_after_save]
        exact isDup_after_save idx pn pd su sd sdt cd iu now
          (image_filename_of su sd ii rand) n hiu
      exact receive_image_dup_eq _ pn pd su sd sdt ii cd iu now' rand' hdup2

/-- C1 witness: a concrete run — second push of image uid "u1" for the same
patient and study is skipped, one image with that uid is stored, no file is
written and the persisted index is untouched. -/
theorem receive_image_dedup_witness :
    (receive_image (receive_image ⟨[], [], none⟩
         "p" "" "" "s" "" "0" "" "u1" "t1" "aaaaaa").persisted
       "p" "" "" "s" "" "0" "" "u1" "t2" "bbbbbb" =
      { status := RIStatus.skipped (patient_key_of "p" ""),
        persisted := (receive_image ⟨[], [], none⟩
          "p" "" "" "s" "" "0" "" "u1" "t1" "aaaaaa").persisted,
        written := [] })
    ∧ (study_resolved
         (patient_after_reg (receive_image ⟨[], [], none⟩
             "p" "" "" "s" "" "0" "" "u1" "t1" "aaaaaa").persisted
           "p" "" "" "t2") "" "s" "" "").images.countP
        (fun img => img.uid == some "u1") = 1 := by
  have h := (receive_image_dedup ⟨[], [], none⟩
      "p" "" "" "s" "" "0" "" "u1" "t1" "aaaaaa" "t2" "bbbbbb" 0).2
    (by decide) (by decide) (by decide)
  exact ⟨h.2.2, h.2.1⟩

/-! ## C4: empty image uid never deduplicates -/

/-- C4: an ingestion whose `image_uid` is empty never trips the duplicate
check: for every index (hence across any number of repeats with identical
metadata), provided the integer contract on `image_index` is met, the call
returns the saved result and appends a fresh image record to the resolved
study. -/
theorem receive_image_empty_uid (idx : Index)
    (pn pd su sd sdt ii cd now rand : String) (n : Int)
    (hint : pyInt? ii = some n) :
    receive_image idx pn pd su sd sdt ii cd "" now rand =
      { status := RIStatus.saved (image_filename_of su sd ii rand) (patient_key_of pn pd),
        persisted := apply_save idx pn pd su sd sdt cd "" now
          (image_filename_of su sd ii rand) n,
        written := [(patient_key_of pn pd, image_filename_of su sd ii rand)] }
    ∧ (study_resolved (patient_after_reg (apply_save idx pn pd su sd sdt cd "" now
          (image_filename_of su sd ii rand) n) pn pd cd now) su sd sdt cd).images
      = (study_resolved (patient_after_reg idx pn pd cd now) su sd sdt cd).images
        ++ [new_image_entry (patient_key_of pn pd) (image_filename_of su sd ii rand) n now ""]
    := by
  have hdup : isDupImage (study_resolved (patient_after_reg idx pn pd cd now) su sd sdt cd) ""
      = false := by simp [isDupImage]
  refine ⟨receive_image_save_eq idx pn pd su sd sdt ii cd "" now rand n hdup hint, ?_⟩
  rw [patient_after_reg_after_save, study_resolved_after_save]
  rfl

/-- C4 witness: the third identical push with empty uid is still saved. -/
theorem receive_image_empty_uid_witness :
    pyInt? "0" = some 0
    ∧ (receive_image (receive_image ⟨[], [], none⟩
          "p" "" "" "s" "" "0" "" "" "t1" "aaaaaa").persisted
        "p" "" "" "s" "" "0" "" "" "t2" "bbbbbb").status
      = RIStatus.saved (image_filename_of "" "s" "0" "bbbbbb") (patient_key_of "p" "") := by
  refine ⟨by decide, ?_⟩
  rw [(receive_image_empty_uid _ "p" "" "" "s" "" "0" "" "t2" "bbbbbb" 0 (by decide)).1]

/-! ## C5: `image_count` invariant -/

/-- Every stored patient's `image_count` equals the sum of the image-list
lengths over its studies. -/
def countsOk (idx : Index) : Prop :=
  ∀ kv ∈ idx.patients,
    kv.2.image_count = (kv.2.studies.map (fun s => s.2.images.length)).sum

/-- C5: `receive_image` preserves the `image_count` invariant on its
persisted index — lines 200-202 recompute the count from the per-study
sequences, and the skipped/error paths persist nothing. -/
theorem receive_image_counts (idx : Index)
    (pn pd su sd sdt ii cd iu now rand : String)
    (h : countsOk idx) :
    countsOk (receive_image idx pn pd su sd sdt ii cd iu now rand).persisted := by
  cases hdup : isDupImage (study_resolved (patient_after_reg idx pn pd cd now) su sd sdt cd) iu
  case true =>
    rw [receive_image_dup_eq idx pn pd su sd sdt ii cd iu now rand hdup]
    exact h
  case false =>
    cases hint : pyInt? ii with
    | none =>
      rw [receive_image_invalid_eq idx pn pd su sd sdt ii cd iu now rand hdup hint]
      exact h
    | some n =>
      rw [receive_image_save_eq idx pn pd su sd sdt ii cd iu now rand n hdup hint]
      intro kv hkv
      rcases mem_setKey hkv with hkv' | hkv'
      · subst hkv'
        rfl
      · exact h kv hkv'

/-- C5 witness: the invariant holds on the empty index and is carried to the
index persisted by a concrete ingestion. -/
theorem receive_image_counts_witness :
    countsOk ⟨[], [], none⟩
    ∧ countsOk (receive_image ⟨[], [], none⟩
        "p" "" "" "s" "" "0" "" "" "t1" "aaaaaa").persisted :=
  ⟨fun kv hkv => absurd hkv (List.not_mem_nil kv),
   receive_image_counts ⟨[], [], none⟩ "p" "" "" "s" "" "0" "" "" "t1" "aaaaaa"
     (fun kv hkv => absurd hkv (List.not_mem_nil kv))⟩

/-! ## C10: invalid `image_index` fails after the file write -/

/-- C10 counterexample: a call whose `image_index` is not an integer but
whose `image_uid` duplicates a stored image is short-circuited by the
duplicate check — no failure is raised and no orphan file is written, so
the claim does not hold for every call with a malformed index. -/
def exDupImage : ImageRec :=
  { filename := "f.jpg", path := "images/p_/f.jpg", index := 0, saved_at := "t",
    uid := some "u1" }

def exDupStudy : Study :=
  { uid := "", description := "s", date := "", images := [exDupImage] }

def exDupPatient : Patient :=
  { name := "p", dob := "", clinic_date := "", studies := [("s_", exDupStudy)],
    image_count := 1, created_at := "t" }

def exDup : Index := ⟨[("p_", exDupPatient)], [], none⟩

theorem receive_image_invalid_index_dup_skips :
    pyInt? "abc" = none
    ∧ receive_image exDup "p" "" "" "s" "" "abc" "" "u1" "t2" "aaaaaa" =
        { status := RIStatus.skipped "p_", persisted := exDup, written := [] } := by
  decide

/-- C10 (amended): when `image_index` is not a valid integer and the call is
not short-circuited by the duplicate check, the `ValueError` of
`int(image_index)` (line 193) is raised only after the image bytes were
written (line 188): the persisted index is the incoming one — no image
record, no `image_count` update, no persist — while the file under the
generated name has been written. -/
theorem receive_image_invalid_index (idx : Index)
    (pn pd su sd sdt ii cd iu now rand : String)
    (hint : pyInt? ii = none)
    (hdup : isDupImage (study_resolved (patient_after_reg idx pn pd cd now) su sd sdt cd) iu
        = false) :
    receive_image idx pn pd su sd sdt ii cd iu now rand =
      { status := RIStatus.validationError, persisted := idx,
        written := [(patient_key_of pn pd, image_filename_of su sd ii rand)] } :=
  receive_image_invalid_eq idx pn pd su sd sdt ii cd iu now rand hdup hint

/-- C10 witness: a concrete malformed index on a fresh index — file written,
nothing persisted. -/
theorem receive_image_invalid_index_witness :
    receive_image ⟨[], [], none⟩ "p" "" "" "s" "" "abc" "" "" "t1" "aaaaaa" =
      { status := RIStatus.validationError, persisted := ⟨[], [], none⟩,
        written := [(patient_key_of "p" "", image_filename_of "" "s" "abc" "aaaaaa")] } :=
  receive_image_invalid_index ⟨[], [], none⟩ "p" "" "" "s" "" "abc" "" "" "t1" "aaaaaa"
    (by decide) (by decide)

/-! ## C6: registration against an existing key -/

/-- C6 counterexample: registering a second time under the same derived key
(`"a b"` and `"a  b"` both sanitize to `"a_b_"`) with new field values,
including a non-empty `clinic_date`, changes nothing — lines 113-122 only
create, so the fields do not take the newly supplied values. -/
def exReg : Index := (register_patient ⟨[], [], none⟩ "a b" "" "" "t1").1

theorem register_patient_not_last_write :
    patient_key_of "a  b" "" = "a_b_"
    ∧ alookup "a_b_" exReg.patients
        = some { name := "a b", dob := "", clinic_date := "", studies := [],
                 image_count := 0, created_at := "t1" }
    ∧ (register_patient exReg "a  b" "" "2024-02-01" "t2").1 = exReg
    ∧ ("a b" : String) ≠ "a  b"
    ∧ ("" : String) ≠ "2024-02-01" := by
  decide

/-- C6 (amended): a registration call whose derived patient key already
exists in the index is a complete no-op — no field of the stored patient
takes the newly supplied values, `save_index` is not reached, and the call
still reports the key.  In particular a non-empty `clinic_date` is never
overwritten by a blank one. -/
theorem register_patient_existing_noop (idx : Index) (pn pd cd now : String)
    (h : ∃ p, alookup (patient_key_of pn pd) idx.patients = some p) :
    register_patient idx pn pd cd now = (idx, patient_key_of pn pd) := by
  obtain ⟨p, hp⟩ := h
  simp [register_patient, hp]

/-- C6 witness: re-registering the patient of `exReg` under an equivalent
name is the identity on the index. -/
theorem register_patient_existing_noop_witness :
    register_patient exReg "a  b" "" "2024-02-01" "t2" = (exReg, patient_key_of "a  b" "") :=
  register_patient_existing_noop exReg "a  b" "" "2024-02-01" "t2"
    ⟨{ name := "a b", dob := "", clinic_date := "", studies := [],
       image_count := 0, created_at := "t1" }, by decide⟩

/-! ## C9: `request_refresh` -/

/-- C9: `request_refresh` fails with NotFound (`none`) exactly when the key
is absent from the index's patients; otherwise it persists an index in
which `pending_refreshes[key]` is the supplied UTC timestamp (overwriting
any prior one), every other pending entry is unchanged, and the patient
records are untouched. -/
theorem request_refresh_spec (idx : Index) (key utcNow now : String) :
    (request_refresh idx key utcNow now = none ↔ alookup key idx.patients = none)
    ∧ (∀ p, alookup key idx.patients = some p →
        ∃ idx', request_refresh idx key utcNow now = some idx'
          ∧ idx'.patients = idx.patients
          ∧ alookup key idx'.pending_refreshes = some utcNow
          ∧ ∀ k', k' ≠ key →
              alookup k' idx'.pending_refreshes = alookup k' idx.pending_refreshes) := by
  constructor
  · cases h : alookup key idx.patients with
    | none => simp [request_refresh, h]
    | some p => simp [request_refresh, h]
  · intro p hp
    refine ⟨{ idx with
              pending_refreshes := setKey key utcNow idx.pending_refreshes,
              updated := some now }, ?_, rfl, alookup_setKey_self _ _ _, ?_⟩
    · simp [request_refresh, hp]
    · intro k' hk'
      exact alookup_setKey_ne hk' _ _

/-- C9 witness: on an index owning patient `"p_"` with a stale pending
entry, the refresh overwrites that entry, keeps the unrelated one, and the
unknown key `"q"` still yields NotFound. -/
def exRefresh : Index :=
  ⟨[("p_", { name := "p", dob := "", clinic_date := "", studies := [],
             image_count := 0, created_at := "t0" })],
   [("p_", "old"), ("r_", "keep")], none⟩

theorem request_refresh_spec_witness :
    (request_refresh exRefresh "q" "u1" "t1" = none)
    ∧ ∃ idx', request_refresh exRefresh "p_" "u1" "t1" = some idx'
        ∧ idx'.patients = exRefresh.patients
        ∧ alookup "p_" idx'.pending_refreshes = some "u1"
        ∧ alookup "r_" idx'.pending_refreshes = some "keep" := by
  constructor
  · exact (request_refresh_spec exRefresh "q" "u1" "t1").1.mpr (by decide)
  · obtain ⟨idx', h1, h2, h3, h4⟩ :=
      (request_refresh_spec exRefresh "p_" "u1" "t1").2
        { name := "p", dob := "", clinic_date := "", studies := [],
          image_count := 0, created_at := "t0" } (by decide)
    exact ⟨idx', h1, h2, h3, by rw [h4 "r_" (by decide)]; decide⟩

/-! ## C2: `list_patients` ordering -/

/-- C2: two patients share the clinic date `"2024-01-10"`; the one stored
first (`"pA"`) has the LATER `created_at`.  The summary dicts built on
lines 215-222 carry no `created_at` key, so the secondary sort on line 224
compares the constant default `""` and `list_patients` keeps insertion
order `["pA", "pB"]` inside the tie group — not the `created_at`-ascending
order `["pB", "pA"]` promised by the comment on line 223 and by the spec. -/
def exSort : Index :=
  ⟨[("pA", { name := "A", dob := "", clinic_date := "2024-01-10", studies := [],
             image_count := 0, created_at := "2024-01-02T09:00:00" }),
    ("pB", { name := "B", dob := "", clinic_date := "2024-01-10", studies := [],
             image_count := 0, created_at := "2024-01-01T09:00:00" })], [], none⟩

theorem list_patients_ignores_created_at :
    (list_patients exSort).map (fun p => p.key) = ["pA", "pB"]
    ∧ (alookup "pA" exSort.patients).map Patient.clinic_date
        = (alookup "pB" exSort.patients).map Patient.clinic_date
    ∧ (alookup "pA" exSort.patients).map Patient.created_at
        = some "2024-01-02T09:00:00"
    ∧ (alookup "pB" exSort.patients).map Patient.created_at
        = some "2024-01-01T09:00:00"
    ∧ pyStrLe "2024-01-01T09:00:00" "2024-01-02T09:00:00" = true
    ∧ ("2024-01-01T09:00:00" : String) ≠ "2024-01-02T09:00:00" := by
  decide

/-! ## C3: fallback study keys and distinct clinic dates -/

/-- Strip-and-collapse part of `sanitize_filename`, before the 100-character
truncation. -/
def scrub (l : List Char) : List Char :=
  collapseWs (l.filter keptChar)

theorem collapseAux_cons_space_true {a : Char} (ha : pySpace a = true) (l : List Char) :
    collapseAux true (a :: l) = collapseAux true l := by
  simp [collapseAux, ha]

theorem collapseAux_cons_space_false {a : Char} (ha : pySpace a = true) (l : List Char) :
    collapseAux false (a :: l) = '_' :: collapseAux true l := by
  simp [collapseAux, ha]

theorem collapseAux_cons_not_space {a : Char} (ha : pySpace a = false)
    (b : Bool) (l : List Char) :
    collapseAux b (a :: l) = a :: collapseAux false l := by
  simp [collapseAux, ha]

theorem collapseAux_append {c : Char} (hc : pySpace c = false) :
    ∀ (b : Bool) (A B : List Char),
      collapseAux b (A ++ c :: B) = collapseAux b A ++ collapseAux false (c :: B) := by
  intro b A
  induction A generalizing b with
  | nil => intro B; cases b <;> simp [collapseAux, hc]
  | cons a rest ih =>
    intro B
    rw [List.cons_append]
    by_cases ha : pySpace a = true
    · cases b with
      | true =>
        rw [collapseAux_cons_space_true ha, collapseAux_cons_space_true ha, ih]
      | false =>
        rw [collapseAux_cons_space_false ha, collapseAux_cons_space_false ha, ih true B]
        rfl
    · have ha' : pySpace a = false := by simpa using ha
      rw [collapseAux_cons_not_space ha', collapseAux_cons_not_space ha', ih false B]
      rfl

/-- `scrub` distributes over concatenation at a literal underscore: the
underscore survives both regexes and separates the whitespace runs on
either side. -/
theorem scrub_append_underscore (d c : List Char) :
    scrub (d ++ '_' :: c) = scrub d ++ '_' :: scrub c := by
  unfold scrub collapseWs
  rw [List.filter_append]
  have hfu : List.filter keptChar ('_' :: c) = '_' :: List.filter keptChar c := by
    rw [List.filter_cons_of_pos (by decide)]
  rw [hfu, collapseAux_append (by decide) false]
  rw [collapseAux_cons_not_space (by decide) false]

theorem string_data_append (a b : String) : (a ++ b).data = a.data ++ b.data := rfl

/-- For an empty study uid and study date, the derived study key is exactly
the scrubbed description (or `"study"`), an underscore, and the scrubbed
clinic date — whenever this fits inside the 100-character truncation. -/
theorem study_key_of_empty_eq (d c : String)
    (h : (scrub (if d ≠ "" then d else "study").data ++ '_' :: scrub c.data).length ≤ 100) :
    (study_key_of "" d "" c).data
      = scrub (if d ≠ "" then d else "study").data ++ '_' :: scrub c.data := by
  have hfb : (if ("" : String) ≠ "" then "" else if c ≠ "" then c else "") = c := by
    by_cases hc : c = ""
    · simp [hc]
    · simp [hc]
  have hdata : ((if d ≠ "" then d else "study") ++ "_" ++ c).data
      = (if d ≠ "" then d else "study").data ++ '_' :: c.data := by
    rw [string_data_append, string_data_append]
    rw [List.append_assoc]
    rfl
  have hk : (sanitize_filename ((if d ≠ "" then d else "study") ++ "_" ++ c)).data
      = scrub (if d ≠ "" then d else "study").data ++ '_' :: scrub c.data := by
    show sanitizeList ((if d ≠ "" then d else "study") ++ "_" ++ c).data = _
    rw [hdata]
    show (scrub ((if d ≠ "" then d else "study").data ++ '_' :: c.data)).take 100 = _
    rw [scrub_append_underscore]
    exact List.take_of_length_le h
  have hkne : sanitize_filename ((if d ≠ "" then d else "study") ++ "_" ++ c) ≠ "" := by
    intro he
    have : (sanitize_filename ((if d ≠ "" then d else "study") ++ "_" ++ c)).data = [] := by
      rw [he]
    rw [hk] at this
    exact List.append_ne_nil_of_right_ne_nil _ (List.cons_ne_nil _ _) this
  show (study_key_of "" d "" c).data = _
  unfold study_key_of
  rw [if_neg (by simp)]
  simp only [hfb]
  rw [if_neg hkne]
  exact hk

/-- C3 counterexample: with byte-identical descriptions, empty uids and
empty study dates, the distinct clinic dates `"a"` and `"a!"` sanitize to
the same string, so the two derived study keys coincide and the studies
merge. -/
theorem study_key_fallback_collides :
    study_key_of "" "d" "" "a" = study_key_of "" "d" "" "a!"
    ∧ ("a" : String) ≠ "a!" := by
  decide

/-- C3 (amended): with empty study uids, byte-identical descriptions and no
study date, two ingestions whose clinic dates are still distinct after
sanitization (scrubbing) derive distinct study keys, provided both
underlying keys fit inside the 100-character truncation. -/
theorem study_key_fallback_separates (d c1 c2 : String)
    (hne : scrub c1.data ≠ scrub c2.data)
    (h1 : (scrub (if d ≠ "" then d else "study").data ++ '_' :: scrub c1.data).length ≤ 100)
    (h2 : (scrub (if d ≠ "" then d else "study").data ++ '_' :: scrub c2.data).length ≤ 100) :
    study_key_of "" d "" c1 ≠ study_key_of "" d "" c2 := by
  intro he
  have h1' := study_key_of_empty_eq d c1 h1
  have h2' := study_key_of_empty_eq d c2 h2
  have hdata : scrub (if d ≠ "" then d else "study").data ++ '_' :: scrub c1.data
      = scrub (if d ≠ "" then d else "study").data ++ '_' :: scrub c2.data := by
    rw [← h1', ← h2', he]
  have := List.append_cancel_left hdata
  exact hne (by injection this)

/-- C3 witness: description `"MRI Brain"`, clinic dates `"2024-01-10"` and
`"2024-02-01"` — the derived study keys differ. -/
theorem study_key_fallback_separates_witness :
    scrub ("2024-01-10" : String).data ≠ scrub ("2024-02-01" : String).data
    ∧ study_key_of "" "MRI Brain" "" "2024-01-10" ≠ study_key_of "" "MRI Brain" "" "2024-02-01" :=
  ⟨by decide,
   study_key_fallback_separates "MRI Brain" "2024-01-10" "2024-02-01"
     (by decide) (by decide) (by decide)⟩

/-! ## C7: recognition scorer selection -/

theorem ocr_foldl_const (l : List String) : ∀ b : String × Nat,
    (∀ t ∈ l, countDates t ≤ b.2) → l.foldl ocrStep b = b := by
  induction l with
  | nil => intro b _; rfl
  | cons t rest ih =>
    intro b h
    have ht : countDates t ≤ b.2 := h t (List.mem_cons_self _ _)
    have hstep : ocrStep b t = b := by
      simp [ocrStep, Nat.not_lt.mpr ht]
    rw [List.foldl_cons, hstep]
    exact ih b fun u hu => h u (List.mem_cons_of_mem _ hu)

theorem ocr_foldl_bound (l : List String) : ∀ (b : String × Nat) (m : Nat),
    (∀ t ∈ l, countDates t < m) → b.2 < m → (l.foldl ocrStep b).2 < m := by
  induction l with
  | nil => intro b m _ hb; exact hb
  | cons t rest ih =>
    intro b m h hb
    rw [List.foldl_cons]
    refine ih _ m (fun u hu => h u (List.mem_cons_of_mem _ hu)) ?_
    by_cases hn : countDates t > b.2
    · simpa [ocrStep, hn] using h t (List.mem_cons_self _ _)
    · simpa [ocrStep, hn] using hb

/-- C7 counterexample: when every mode output has zero date matches, the
loop on lines 90-95 never beats the initial `best_text, best_count = '', 0`,
so the empty string is returned — not the first mode's output `"x"` that a
first-seen-wins tie-break over the mode outputs would select. -/
theorem ocrBest_all_zero_keeps_initial :
    ocrBest ["x", "y", "z"] = ("", 0)
    ∧ countDates "x" = 0 ∧ countDates "y" = 0 ∧ countDates "z" = 0
    ∧ ("x" : String) ≠ "" := by
  decide

/-- C7 (amended): the scan starts from the initial candidate `("", 0)` and
keeps a new output only on a strictly higher date count.  Hence (i) when
every output scores zero the empty initial text is returned, and (ii) when
some output has a positive count, the first output achieving the maximum
count is returned — in particular first-seen-wins among tied modes, as in
the `(2, 0, 2)` instance where mode A's output is selected. -/
theorem ocrBest_spec (texts pre post : List String) (t : String) :
    ((∀ u ∈ texts, countDates u = 0) → ocrBest texts = ("", 0))
    ∧ (texts = pre ++ t :: post →
       0 < countDates t →
       (∀ u ∈ pre, countDates u < countDates t) →
       (∀ v ∈ post, countDates v ≤ countDates t) →
       ocrBest texts = (t, countDates t)) := by
  constructor
  · intro h
    exact ocr_foldl_const texts ("", 0) (fun u hu => by simp [h u hu])
  · rintro rfl hpos hpre hpost
    unfold ocrBest
    rw [List.foldl_append, List.foldl_cons]
    have hb : (pre.foldl ocrStep ("", 0)).2 < countDates t :=
      ocr_foldl_bound pre ("", 0) (countDates t) hpre hpos
    have hstep : ocrStep (pre.foldl ocrStep ("", 0)) t = (t, countDates t) := by
      simp [ocrStep, hb]
    rw [hstep]
    exact ocr_foldl_const post (t, countDates t) hpost

/-- C7 witness: outputs with date counts (2, 0, 2) in priority order — the
first output is selected; and an all-zero run returns the empty initial
text. -/
theorem ocrBest_spec_witness :
    ocrBest ["1/1/20 2/2/20", "x", "3/3/30 4/4/30"] = ("1/1/20 2/2/20", 2)
    ∧ ocrBest ["x", "y"] = ("", 0) := by
  constructor
  · have h := (ocrBest_spec ["1/1/20 2/2/20", "x", "3/3/30 4/4/30"]
        [] ["x", "3/3/30 4/4/30"] "1/1/20 2/2/20").2
      rfl (by decide) (by decide) (by decide)
    have hc : countDates "1/1/20 2/2/20" = 2 := by decide
    rw [hc] at h
    exact h
  · exact (ocrBest_spec ["x", "y"] [] [] "").1 (by decide)
